import Mathlib

/-!
Verification of the Quoridor Chess Nakama server module
(src/backend/modules/main.go) against its natural-language specification.

The Go module is embedded shallowly:
* Go structs become Lean structures (machine `int` becomes `Int`,
  `float64` payload numbers become `ℚ`, since every JSON number the
  handler reads is a decimal rational and `int(x)` truncates toward zero).
* The Go `map[string]*Player` becomes an association list; wherever the
  source iterates a map with `range` (whose enumeration order Go leaves
  unspecified), the embedding takes the enumeration order as an explicit
  argument, so every possible Go execution corresponds to some choice of
  that argument.
* The message handlers of `MatchLoop`, and the `MatchJoin` / `MatchLeave`
  callbacks, become pure state-transition functions.
-/

namespace Quoridor

/-- Position - a board coordinate (main.go lines 86-89). -/
structure Position where
  x : Int
  y : Int
deriving DecidableEq, Repr

/-- Player - player record (main.go lines 77-83): id, display name,
current position, remaining wall count, color tag. -/
structure Player where
  id : String
  username : String
  pos : Position
  walls : Int
  color : String
deriving DecidableEq, Repr

/-- Wall - a placed wall (main.go lines 106-110). `startPos`/`endPos`
embed the Go fields `Start`/`End` (`end` is reserved in Lean). -/
structure Wall where
  startPos : Position
  endPos : Position
  horizontal : Bool
deriving DecidableEq, Repr

/-- Board - board state (main.go lines 100-103). -/
structure Board where
  size : Int
  walls : List Wall
deriving DecidableEq, Repr

/-- GameState - the authoritative game state (main.go lines 67-74).
`players` is the Go `map[string]*Player`, embedded as an association
list whose order records insertion (join) order; the Go code never
relies on map order except through `range`, which the embedding
models with explicit enumeration-order arguments. -/
structure GameState where
  players : List (String × Player)
  board : Board
  currentTurn : String
  winner : String
  gameStarted : Bool
  createdAt : Int
deriving DecidableEq, Repr

/-- MaxPlayers constant (main.go line 18). -/
def MaxPlayers : Nat := 2

/-- Association-list lookup, embedding Go map indexing `Players[id]`
(a missing key yields `none`, matching the Go `nil` check). -/
def lookupP : List (String × Player) → String → Option Player
  | [], _ => none
  | (k, v) :: rest, id => if k = id then some v else lookupP rest id

/-- Association-list update, embedding Go map assignment
`Players[id] = p` (overwrite if present, insert at the end if not). -/
def setP : List (String × Player) → String → Player → List (String × Player)
  | [], id, p => [(id, p)]
  | (k, v) :: rest, id, p =>
      if k = id then (k, p) :: rest else (k, v) :: setP rest id p

/-- Association-list deletion, embedding Go `delete(Players, id)`. -/
def removeP (ps : List (String × Player)) (id : String) : List (String × Player) :=
  ps.filter (fun kv => kv.1 ≠ id)

/-- The set of connected presences (Go `map[string]runtime.Presence`),
embedded as the list of connected user ids. -/
def insertPres (ps : List String) (id : String) : List String :=
  if id ∈ ps then ps else ps ++ [id]

/-- Presence deletion, embedding Go `delete(presences, id)`. -/
def removePres (ps : List String) (id : String) : List String :=
  ps.filter (fun k => k ≠ id)

/-- abs - integer absolute value helper (main.go lines 92-97). -/
def goAbs (x : Int) : Int :=
  if x < 0 then -x else x

/-- Truncation of a rational toward zero, embedding the Go conversion
`int(x)` applied to a `float64` JSON number (main.go lines 295-296);
Go specifies that this conversion discards the fractional part,
truncating toward zero. Defined on the numerator/denominator
representation so that it evaluates by kernel reduction;
`truncQ_eq_ceil_floor` below checks it against the textbook
floor/ceiling characterization of truncation. -/
def truncQ (q : ℚ) : ℤ :=
  if q.num < 0 then -(((-q.num).toNat / q.den : ℕ) : ℤ)
  else ((q.num.toNat / q.den : ℕ) : ℤ)

/-- The validity checks of the `"move"` handler (main.go lines 265-310),
in source order: game started (line 267), sender is `CurrentTurn`
(line 272), sender has a `Player` record (lines 289-292), truncated
destination within the 9x9 board (line 299), and the basic
one-step-orthogonal adjacency test (lines 304-309). A `false` result is
a Go `continue`, i.e. the message is ignored. -/
def moveCheck (g : GameState) (uid : String) (qx qy : ℚ) : Bool :=
  if g.gameStarted = false then false
  else if uid ≠ g.currentTurn then false
  else
    match lookupP g.players uid with
    | none => false
    | some player =>
      let newX := truncQ qx
      let newY := truncQ qy
      if newX < 0 ∨ newX > 8 ∨ newY < 0 ∨ newY > 8 then false
      else
        let dx := newX - player.pos.x
        let dy := newY - player.pos.y
        if (dx ≠ 0 ∧ dy ≠ 0) ∨ goAbs dx + goAbs dy ≠ 1 then false
        else true

/-- First key yielded by a `range` loop over a map that assigns every
visited key and breaks on a mismatch with `cur` (main.go lines 323-328):
the first enumerated id different from `cur`, or `cur` unchanged if the
enumeration yields none. The enumeration order is the explicit
`order` argument. -/
def switchTurn : List String → String → String
  | [], cur => cur
  | id :: rest, cur => if id ≠ cur then id else switchTurn rest cur

/-- The mutating tail of the `"move"` handler (main.go lines 312-328),
run only when `moveCheck` passed: write the new position, run the win
check (lines 316-320: white wins at row 0, black at row 8, setting
`Winner` and clearing `GameStarted`), then switch `CurrentTurn` to the
first enumerated player id different from the current one. -/
def applyMove (g : GameState) (uid : String) (newX newY : Int)
    (order : List String) : GameState :=
  match lookupP g.players uid with
  | none => g
  | some player =>
    let movedPlayer : Player := { player with pos := { x := newX, y := newY } }
    let g1 : GameState := { g with players := setP g.players uid movedPlayer }
    let g2 : GameState :=
      if (player.color = "white" ∧ newY = 0) ∨ (player.color = "black" ∧ newY = 8)
      then { g1 with winner := uid, gameStarted := false }
      else g1
    { g2 with currentTurn := switchTurn order g2.currentTurn }

/-- The complete `"move"` message handler (main.go lines 265-336):
run the checks; on failure the Go code `continue`s, leaving the state
untouched, otherwise the move is executed on the truncated
coordinates. -/
def handleMove (g : GameState) (uid : String) (qx qy : ℚ)
    (order : List String) : GameState :=
  if moveCheck g uid qx qy then applyMove g uid (truncQ qx) (truncQ qy) order
  else g

/-- A parsed client message as `MatchLoop` sees it after
`json.Unmarshal` (main.go lines 243-250). A `move` carries the two
numeric payload coordinates plus the enumeration order the Go runtime
happens to use for the turn-switch `range` loop; `malformed` stands for
any payload that fails JSON parsing or the `position`/`x`/`y` type
assertions (all of which `continue`). -/
inductive ClientMsg where
  | chat (userId : String)
  | move (userId : String) (qx qy : ℚ) (order : List String)
  | placeWall (userId : String)
  | malformed
deriving DecidableEq, Repr

/-- One iteration of the `MatchLoop` message dispatch (main.go lines
243-341) restricted to its effect on the game state: `chat` only
broadcasts (lines 251-263), `move` runs the move handler, and
`place_wall` (lines 338-339) has an empty body - the wall-placement
logic is an unimplemented TODO, so the message is ignored. -/
def stepMsg (g : GameState) : ClientMsg → GameState
  | .chat _ => g
  | .move uid qx qy order => handleMove g uid qx qy order
  | .placeWall _ => g
  | .malformed => g

/-- Processing of a whole message batch by `MatchLoop`, in order. -/
def runMsgs (g : GameState) : List ClientMsg → GameState
  | [] => g
  | m :: rest => runMsgs (stepMsg g m) rest

/-- The per-match server state: connected presences plus the game
state (main.go lines 54-59, ignoring the constant tick rate and the
broadcast-only label). -/
structure MatchState where
  presences : List String
  game : GameState
deriving DecidableEq, Repr

/-- MatchInit (main.go lines 118-136): no presences, empty player map,
9x9 board with no walls, game not started; `createdAt` records the
wall-clock time, taken here as a parameter. -/
def initMatch (now : Int) : MatchState :=
  { presences := []
    game :=
      { players := []
        board := { size := 9, walls := [] }
        currentTurn := ""
        winner := ""
        gameStarted := false
        createdAt := now } }

/-- MatchJoin for a single joining presence (main.go lines 151-210):
record the presence, create the player (the first joiner - computed
from the player-map size before insertion - is "white" at (4,8), the
second is "black" at (4,0), both with 10 walls), and when the presence
count reaches `MaxPlayers` with the game not yet started, start the
game and set `CurrentTurn` to the first id enumerated by a `range`
loop over the player map (lines 186-192); that enumeration order is
the explicit `order` argument. -/
def joinOne (m : MatchState) (uid uname : String) (order : List String) : MatchState :=
  let presences := insertPres m.presences uid
  let g := m.game
  let playerNum := g.players.length + 1
  let color := if playerNum = 2 then "black" else "white"
  let startY : Int := if playerNum = 2 then 0 else 8
  let players := setP g.players uid
    { id := uid, username := uname, pos := { x := 4, y := startY },
      walls := 10, color := color }
  let g1 : GameState := { g with players := players }
  let g2 : GameState :=
    if presences.length = MaxPlayers ∧ g1.gameStarted = false then
      { g1 with gameStarted := true,
                currentTurn := match order with
                               | [] => g1.currentTurn
                               | id :: _ => id }
    else g1
  { presences := presences, game := g2 }

/-- MatchLeave for a single leaving presence (main.go lines 214-237):
drop the presence and delete the player record. -/
def leaveOne (m : MatchState) (uid : String) : MatchState :=
  { presences := removePres m.presences uid
    game := { m.game with players := removeP m.game.players uid } }

/-- An externally triggered match event: a join (admitted only when
`MatchJoinAttempt`, main.go lines 140-147, accepts, i.e. fewer than
`MaxPlayers` presences are connected), a leave, or a `MatchLoop`
client message. -/
inductive MatchEvent where
  | join (uid uname : String) (order : List String)
  | leave (uid : String)
  | msg (m : ClientMsg)
deriving DecidableEq, Repr

/-- One step of the match lifecycle. -/
def stepEvent (m : MatchState) : MatchEvent → MatchState
  | .join uid uname order =>
      if MaxPlayers ≤ m.presences.length then m else joinOne m uid uname order
  | .leave uid => leaveOne m uid
  | .msg c => { m with game := stepMsg m.game c }

/-- A full match execution: every state produced by `runEvents` from
`initMatch` is reachable by an actual sequence of server callbacks. -/
def runEvents (m : MatchState) : List MatchEvent → MatchState
  | [] => m
  | e :: rest => runEvents (stepEvent m e) rest

/-! ### The specification's move-legality algorithm (for comparison)

The definitions below are NOT translated from the Go source: they
transcribe the spec, for the refinement claim that the server accepts a
move iff it is a legal move of the spec's algorithm. `specWallBlocksEdge`
follows the edge-blocking rule of spec sec. 4.1 and `specLegalMoves` the
algorithm of spec sec. 4.3 (straight step, straight jump over the
adjacent opponent, diagonal around the opponent when the straight jump
is unavailable). -/

/-- A wall as the spec describes it: anchored at a grid intersection
with an orientation flag (spec sec. 3). -/
structure SpecWall where
  anchor : Position
  horizontal : Bool
deriving DecidableEq, Repr

/-- Equality of unordered cell pairs (an edge between adjacent cells). -/
def edgePair (a b c d : Position) : Bool :=
  (a == c && b == d) || (a == d && b == c)

/-- Spec sec. 4.1: a horizontal wall at (wx,wy) blocks the edges
(wx,wy-1)-(wx,wy) and (wx+1,wy-1)-(wx+1,wy); a vertical wall at (wx,wy)
blocks (wx-1,wy)-(wx,wy) and (wx-1,wy+1)-(wx,wy+1). -/
def specWallBlocksEdge (walls : List SpecWall) (a b : Position) : Bool :=
  walls.any fun w =>
    if w.horizontal then
      edgePair a b ⟨w.anchor.x, w.anchor.y - 1⟩ ⟨w.anchor.x, w.anchor.y⟩ ||
      edgePair a b ⟨w.anchor.x + 1, w.anchor.y - 1⟩ ⟨w.anchor.x + 1, w.anchor.y⟩
    else
      edgePair a b ⟨w.anchor.x - 1, w.anchor.y⟩ ⟨w.anchor.x, w.anchor.y⟩ ||
      edgePair a b ⟨w.anchor.x - 1, w.anchor.y + 1⟩ ⟨w.anchor.x, w.anchor.y + 1⟩

/-- Spec sec. 3: a position is on the 9x9 board. -/
def specInBounds (p : Position) : Bool :=
  decide (0 ≤ p.x ∧ p.x ≤ 8 ∧ 0 ≤ p.y ∧ p.y ≤ 8)

/-- Cell occupancy for the two-player board of the spec. -/
def specOccupied (mover opp p : Position) : Bool :=
  p == mover || p == opp

/-- Componentwise sum of a position and a direction vector. -/
def addP (p d : Position) : Position :=
  ⟨p.x + d.x, p.y + d.y⟩

/-- Spec sec. 4.3, one orthogonal direction `d`: skip if the adjacent
cell is out of bounds or the edge to it is wall-blocked; a free
adjacent cell is a normal move; an adjacent opponent allows the
straight jump when the jump cell is in bounds, unoccupied and not
wall-blocked, and otherwise the two perpendicular diagonal escapes,
each legal when in bounds, unoccupied and not wall-blocked. -/
def specMovesInDir (mover opp : Position) (walls : List SpecWall)
    (d : Position) : List Position :=
  let adj := addP mover d
  if !specInBounds adj || specWallBlocksEdge walls mover adj then []
  else if adj != opp then [adj]
  else
    let jump := addP adj d
    if specInBounds jump && !specOccupied mover opp jump &&
        !specWallBlocksEdge walls adj jump then [jump]
    else
      let diag1 := addP adj ⟨d.y, d.x⟩
      let diag2 := addP adj ⟨-d.y, -d.x⟩
      (if specInBounds diag1 && !specOccupied mover opp diag1 &&
          !specWallBlocksEdge walls adj diag1 then [diag1] else []) ++
      (if specInBounds diag2 && !specOccupied mover opp diag2 &&
          !specWallBlocksEdge walls adj diag2 then [diag2] else [])

/-- Spec sec. 4.3: the legal destination set is the union over the four
orthogonal directions. -/
def specLegalMoves (mover opp : Position) (walls : List SpecWall) : List Position :=
  specMovesInDir mover opp walls ⟨0, -1⟩ ++ specMovesInDir mover opp walls ⟨1, 0⟩ ++
  specMovesInDir mover opp walls ⟨0, 1⟩ ++ specMovesInDir mover opp walls ⟨-1, 0⟩

/-! ### Concrete states and traces used by individual claims -/

/-- The in-progress state right after both players joined (first joiner
`p1` is white at (4,8), second joiner `p2` black at (4,0)), with the
turn at `p1`. -/
def startedState : GameState :=
  { players := [("p1", { id := "p1", username := "alice",
                         pos := { x := 4, y := 8 }, walls := 10, color := "white" }),
                ("p2", { id := "p2", username := "bob",
                         pos := { x := 4, y := 0 }, walls := 10, color := "black" })]
    board := { size := 9, walls := [] }
    currentTurn := "p1"
    winner := ""
    gameStarted := true
    createdAt := 0 }

/-- Scenario C of the spec: mover `p1` at (4,4), opponent `p2` at
(4,3), no walls, `p1` to move. -/
def c1State : GameState :=
  { players := [("p1", { id := "p1", username := "alice",
                         pos := { x := 4, y := 4 }, walls := 10, color := "white" }),
                ("p2", { id := "p2", username := "bob",
                         pos := { x := 4, y := 3 }, walls := 10, color := "black" })]
    board := { size := 9, walls := [] }
    currentTurn := "p1"
    winner := ""
    gameStarted := true
    createdAt := 0 }

/-- Scenario B of the spec: white `p1` at (4,1), one step from its goal
row 0, `p1` to move. -/
def c5State : GameState :=
  { players := [("p1", { id := "p1", username := "alice",
                         pos := { x := 4, y := 1 }, walls := 10, color := "white" }),
                ("p2", { id := "p2", username := "bob",
                         pos := { x := 4, y := 0 }, walls := 10, color := "black" })]
    board := { size := 9, walls := [] }
    currentTurn := "p1"
    winner := ""
    gameStarted := true
    createdAt := 0 }

/-- In-progress state with white `p1` at (4,7), `p1` to move (used for
the non-integer-payload claim). -/
def c10State : GameState :=
  { players := [("p1", { id := "p1", username := "alice",
                         pos := { x := 4, y := 7 }, walls := 10, color := "white" }),
                ("p2", { id := "p2", username := "bob",
                         pos := { x := 4, y := 0 }, walls := 10, color := "black" })]
    board := { size := 9, walls := [] }
    currentTurn := "p1"
    winner := ""
    gameStarted := true
    createdAt := 0 }

/-- The rational 39/10 = 3.9, built directly on the reduced
numerator/denominator representation so concrete runs reduce in the
kernel; `C10_theorem` also states `q39d10 = 39 / 10`. -/
def q39d10 : ℚ := ⟨39, 10, by decide, by decide⟩

/-- Both players join: `p1` first, then `p2`, with the game-start
`range` loop enumerating the player map as `p2`, `p1` (one of the two
enumeration orders the unspecified Go map iteration may produce). -/
def twoJoin : MatchState :=
  joinOne (joinOne (initMatch 0) "p1" "alice" []) "p2" "bob" ["p2", "p1"]

/-- Event trace for the collision run: both players join (turn-start
enumeration begins with `p1`, so `p1` moves first), `p1` walks down
column 4 from (4,8) to (4,4) while `p2` walks up from (4,0) to (4,3). -/
def c4Trace : List MatchEvent :=
  [ .join "p1" "alice" [], .join "p2" "bob" ["p1", "p2"],
    .msg (.move "p1" 4 7 ["p1", "p2"]),
    .msg (.move "p2" 4 1 ["p1", "p2"]),
    .msg (.move "p1" 4 6 ["p1", "p2"]),
    .msg (.move "p2" 4 2 ["p1", "p2"]),
    .msg (.move "p1" 4 5 ["p1", "p2"]),
    .msg (.move "p2" 4 3 ["p1", "p2"]),
    .msg (.move "p1" 4 4 ["p1", "p2"]) ]

/-- The match state reached by `c4Trace`: `p1` and `p2` on the
adjacent cells (4,4) and (4,3), `p2` to move. -/
def c4Pre : MatchState := runEvents (initMatch 0) c4Trace

/-- `c4Pre` followed by `p2` moving onto `p1`'s cell (4,4). -/
def c4Post : MatchState :=
  stepEvent c4Pre (.msg (.move "p2" 4 4 ["p1", "p2"]))

/-- Event trace for the terminality run: both players join (`p1` moves
first), `p1` walks straight down column 4 to its goal row 0 while `p2`
shuffles between (4,0) and (3,0); the last move is `p1`'s winning step
to (4,0). -/
def c6WinEvents : List MatchEvent :=
  [ .join "p1" "alice" [], .join "p2" "bob" ["p1", "p2"],
    .msg (.move "p1" 4 7 ["p1", "p2"]),
    .msg (.move "p2" 3 0 ["p1", "p2"]),
    .msg (.move "p1" 4 6 ["p1", "p2"]),
    .msg (.move "p2" 4 0 ["p1", "p2"]),
    .msg (.move "p1" 4 5 ["p1", "p2"]),
    .msg (.move "p2" 3 0 ["p1", "p2"]),
    .msg (.move "p1" 4 4 ["p1", "p2"]),
    .msg (.move "p2" 4 0 ["p1", "p2"]),
    .msg (.move "p1" 4 3 ["p1", "p2"]),
    .msg (.move "p2" 3 0 ["p1", "p2"]),
    .msg (.move "p1" 4 2 ["p1", "p2"]),
    .msg (.move "p2" 4 0 ["p1", "p2"]),
    .msg (.move "p1" 4 1 ["p1", "p2"]),
    .msg (.move "p2" 3 0 ["p1", "p2"]),
    .msg (.move "p1" 4 0 ["p1", "p2"]) ]

/-- The finished match reached by `c6WinEvents`: `p1` has won. -/
def c6Won : MatchState := runEvents (initMatch 0) c6WinEvents

/-- After the win, `p2` leaves and rejoins (the rejoin passes
`MatchJoinAttempt` since only one presence remains; the restart
enumeration begins with `p2`). -/
def c6Reborn : MatchState :=
  runEvents c6Won [.leave "p2", .join "p2" "bob" ["p2", "p1"]]

/-- `c6Reborn` followed by a `p2` move - processed while `winner` is
still set. -/
def c6Final : MatchState :=
  stepEvent c6Reborn (.msg (.move "p2" 4 1 ["p2", "p1"]))


/-! ### Helper lemmas -/

/-- Truncation of an integer-valued rational is the integer itself. -/
theorem truncQ_intCast (n : ℤ) : truncQ (n : ℚ) = n := by
  unfold truncQ
  rw [Rat.num_intCast, Rat.den_intCast]
  split <;> omega

/-- Sanity check that `truncQ` is truncation toward zero: it agrees
with the ceiling on negative rationals and the floor otherwise. -/
theorem truncQ_eq_ceil_floor (q : ℚ) : truncQ q = if q < 0 then ⌈q⌉ else ⌊q⌋ := by
  unfold truncQ
  by_cases h : q < 0
  · have hn : q.num < 0 := Rat.num_neg.mpr h
    have hceil : ⌈q⌉ = -⌊-q⌋ := by rw [Int.floor_neg, neg_neg]
    rw [if_pos hn, if_pos h, hceil, Rat.floor_def, Rat.num_neg_eq_neg_num, Rat.neg_den]
    congr 1
    rw [Int.natCast_div, Int.toNat_of_nonneg (by omega)]
  · have hn : ¬q.num < 0 := fun hc => h (Rat.num_neg.mp hc)
    rw [if_neg hn, if_neg h, Rat.floor_def, Int.natCast_div, Int.toNat_of_nonneg (by omega)]

/-- The Go `abs` helper agrees with `Int.natAbs`. -/
theorem goAbs_eq_natAbs (x : Int) : goAbs x = (x.natAbs : ℤ) := by
  unfold goAbs
  split <;> omega

/-- A successful map lookup means the key is among the map's keys. -/
theorem lookupP_mem {ps : List (String × Player)} {k : String} {v : Player}
    (h : lookupP ps k = some v) : k ∈ ps.map Prod.fst := by
  induction ps with
  | nil => simp [lookupP] at h
  | cons hd tl ih =>
      unfold lookupP at h
      split at h
      next heq => simp [heq]
      next hne => simp [ih h]

/-- Characterization of the move checks for an in-progress game when
the sender is the current player and has a player record: the move is
accepted iff the truncated destination is on the board and exactly one
orthogonal step away from the player's current cell. -/
theorem moveCheck_iff (g : GameState) (uid : String) (qx qy : ℚ) (p : Player)
    (hstart : g.gameStarted = true) (hturn : uid = g.currentTurn)
    (hp : lookupP g.players uid = some p) :
    moveCheck g uid qx qy = true ↔
      (0 ≤ truncQ qx ∧ truncQ qx ≤ 8 ∧ 0 ≤ truncQ qy ∧ truncQ qy ≤ 8 ∧
       goAbs (truncQ qx - p.pos.x) + goAbs (truncQ qy - p.pos.y) = 1) := by
  subst hturn
  unfold moveCheck
  rw [hstart, hp]
  simp only [goAbs_eq_natAbs]
  rw [if_neg (by simp : ¬(true = false))]
  rw [if_neg (by simp : ¬(g.currentTurn ≠ g.currentTurn))]
  split_ifs with h1 h2
  · exact iff_of_false (by simp) (by omega)
  · exact iff_of_false (by simp) (by omega)
  · exact iff_of_true rfl (by omega)

/-- The move checks can only pass when the game is started, the sender
is the current player, and the sender has a player record. -/
theorem moveCheck_true_inv (g : GameState) (uid : String) (qx qy : ℚ)
    (h : moveCheck g uid qx qy = true) :
    g.gameStarted = true ∧ uid = g.currentTurn ∧
      ∃ p, lookupP g.players uid = some p := by
  unfold moveCheck at h
  by_cases h1 : g.gameStarted = false
  · rw [if_pos h1] at h; cases h
  · rw [if_neg h1] at h
    by_cases h2 : uid ≠ g.currentTurn
    · rw [if_pos h2] at h; cases h
    · rw [if_neg h2] at h
      refine ⟨?_, not_not.mp h2, ?_⟩
      · cases hb : g.gameStarted with
        | false => exact absurd hb h1
        | true => rfl
      · cases hl : lookupP g.players uid with
        | none => rw [hl] at h; cases h
        | some p => exact ⟨p, rfl⟩

/-- Explicit form of the mutating tail of the move handler when the
mover's record exists. -/
theorem applyMove_eq (g : GameState) (uid : String) (newX newY : Int)
    (order : List String) (p : Player) (hp : lookupP g.players uid = some p) :
    applyMove g uid newX newY order =
      { players := setP g.players uid { p with pos := { x := newX, y := newY } }
        board := g.board
        currentTurn := switchTurn order g.currentTurn
        winner := if (p.color = "white" ∧ newY = 0) ∨ (p.color = "black" ∧ newY = 8)
                  then uid else g.winner
        gameStarted := if (p.color = "white" ∧ newY = 0) ∨ (p.color = "black" ∧ newY = 8)
                       then false else g.gameStarted
        createdAt := g.createdAt } := by
  unfold applyMove
  simp only [hp]
  by_cases hwin : (p.color = "white" ∧ newY = 0) ∨ (p.color = "black" ∧ newY = 8)
  · simp only [if_pos hwin]
  · simp only [if_neg hwin]

/-- When the game is not started, every move message is ignored. -/
theorem handleMove_not_started (g : GameState) (uid : String) (qx qy : ℚ)
    (order : List String) (hg : g.gameStarted = false) :
    handleMove g uid qx qy order = g := by
  unfold handleMove moveCheck
  rw [hg]
  simp

/-- When the game is not started, a whole batch of client messages
leaves the game state unchanged: moves are rejected by the
game-started check and `place_wall` / `chat` never mutate the state. -/
theorem runMsgs_not_started (g : GameState) (hg : g.gameStarted = false) :
    ∀ msgs : List ClientMsg, runMsgs g msgs = g := by
  intro msgs
  induction msgs with
  | nil => rfl
  | cons m rest ih =>
      have hstep : stepMsg g m = g := by
        cases m with
        | chat u => rfl
        | malformed => rfl
        | placeWall u => rfl
        | move u ax ay od => exact handleMove_not_started g u ax ay od hg
      unfold runMsgs
      rw [hstep]
      exact ih

/-- A list permutation of an explicit pair is the pair or its swap. -/
theorem perm_pair {α : Type} {a b : α} {l : List α} (h : l.Perm [a, b]) :
    l = [a, b] ∨ l = [b, a] := by
  have hlen := h.length_eq
  rcases l with _ | ⟨x, _ | ⟨y, _ | ⟨z, t⟩⟩⟩
  · simp at hlen
  · simp at hlen
  · have hx : x ∈ [a, b] := h.mem_iff.mp (by simp)
    rcases (by simpa using hx : x = a ∨ x = b) with h1 | h1
    · rw [h1] at h ⊢
      have h3 : y = b := by simpa using List.perm_singleton.mp h.cons_inv
      left; rw [h3]
    · rw [h1] at h ⊢
      have hswap : List.Perm [b, y] [b, a] := h.trans (List.Perm.swap b a [])
      have h3 : y = a := by simpa using List.perm_singleton.mp hswap.cons_inv
      right; rw [h3]
  · simp at hlen

/-- The turn-switch loop over a two-key map always lands on the key
that differs from the current turn, whatever the enumeration order. -/
theorem switchTurn_pair {a b cur : String} (hab : a ≠ b) {order : List String}
    (horder : order = [a, b] ∨ order = [b, a]) (hcur : cur = a ∨ cur = b) :
    switchTurn order cur = if cur = a then b else a := by
  rcases horder with rfl | rfl <;> rcases hcur with rfl | rfl <;>
    simp [switchTurn, hab, Ne.symm hab]

/-! ### Claims -/

/-- Claim C1, counterexample. The claim says the move handler accepts a
requested destination iff it is in the spec's (sec. 4.3) `legalMoves`.
In Scenario C of the spec (mover at (4,4), opponent at (4,3), no
walls) the jump destination (4,2) is a spec-legal move, yet the
server's move handler rejects it: the handler only ever accepts
one-step orthogonal moves. -/
theorem C1_counterexample :
    c1State.gameStarted = true ∧ c1State.currentTurn = "p1" ∧
    lookupP c1State.players "p1" =
      some { id := "p1", username := "alice", pos := { x := 4, y := 4 },
             walls := 10, color := "white" } ∧
    lookupP c1State.players "p2" =
      some { id := "p2", username := "bob", pos := { x := 4, y := 3 },
             walls := 10, color := "black" } ∧
    (Position.mk 4 2) ∈ specLegalMoves ⟨4, 4⟩ ⟨4, 3⟩ [] ∧
    moveCheck c1State "p1" 4 2 = false ∧
    handleMove c1State "p1" 4 2 ["p1", "p2"] = c1State := by
  decide

/-- Claim C1, amended: for every in-progress game state and every move
request from the player named by `currentTurn`, the server's move
handler accepts the requested destination iff the truncated
destination is on the board and exactly one orthogonal step away from
the mover's current cell; walls, the opponent's position, jumps and
diagonal moves are never considered. -/
theorem C1_theorem (g : GameState) (uid : String) (qx qy : ℚ) (p : Player)
    (hstart : g.gameStarted = true) (hturn : uid = g.currentTurn)
    (hp : lookupP g.players uid = some p) :
    moveCheck g uid qx qy = true ↔
      (0 ≤ truncQ qx ∧ truncQ qx ≤ 8 ∧ 0 ≤ truncQ qy ∧ truncQ qy ≤ 8 ∧
       goAbs (truncQ qx - p.pos.x) + goAbs (truncQ qy - p.pos.y) = 1) :=
  moveCheck_iff g uid qx qy p hstart hturn hp

/-- Claim C1, witness: in the Scenario C state the one-step move from
(4,4) to (4,5) is accepted, matching the characterization. -/
theorem C1_witness :
    c1State.gameStarted = true ∧ "p1" = c1State.currentTurn ∧
    (moveCheck c1State "p1" 4 5 = true ↔
      (0 ≤ truncQ 4 ∧ truncQ 4 ≤ 8 ∧ 0 ≤ truncQ 5 ∧ truncQ 5 ≤ 8 ∧
       goAbs (truncQ 4 - 4) + goAbs (truncQ 5 - 4) = 1)) :=
  ⟨rfl, rfl,
   C1_theorem c1State "p1" 4 5
     { id := "p1", username := "alice", pos := { x := 4, y := 4 },
       walls := 10, color := "white" } rfl rfl (by decide)⟩

/-- Claim C2: the `place_wall` handler of `MatchLoop` is an empty TODO
stub (main.go lines 338-339): every wall-placement message - legal or
path-blocking - is silently ignored; no wall is ever appended to
`Board.Walls`, no wall count is decremented, the turn does not
advance, and no `IllegalWall` rejection exists. Evaluated both in
general and on an in-progress state with the current player
requesting a wall. -/
theorem C2_theorem :
    (∀ (g : GameState) (uid : String), stepMsg g (ClientMsg.placeWall uid) = g) ∧
    stepMsg startedState (ClientMsg.placeWall "p1") = startedState ∧
    (stepMsg startedState (ClientMsg.placeWall "p1")).board.walls = [] ∧
    lookupP (stepMsg startedState (ClientMsg.placeWall "p1")).players "p1" =
      some { id := "p1", username := "alice", pos := { x := 4, y := 8 },
             walls := 10, color := "white" } ∧
    (stepMsg startedState (ClientMsg.placeWall "p1")).currentTurn = "p1" :=
  ⟨fun _ _ => rfl, rfl, rfl, by decide, rfl⟩

/-- Claim C3: after `p1` then `p2` join, the deterministic part of the
claim holds (first joiner white at (4,8), second joiner black at
(4,0), 10 walls each, game started) but the first turn does not: the
start-turn `range` loop (main.go lines 189-192) takes the first key of
an unspecified Go map enumeration, and under the enumeration
`p2, p1` - a permutation of the player-map keys, hence a possible Go
execution - `currentTurn` is the second joiner `p2`, not the first
joiner. -/
theorem C3_theorem :
    lookupP twoJoin.game.players "p1" =
      some { id := "p1", username := "alice", pos := { x := 4, y := 8 },
             walls := 10, color := "white" } ∧
    lookupP twoJoin.game.players "p2" =
      some { id := "p2", username := "bob", pos := { x := 4, y := 0 },
             walls := 10, color := "black" } ∧
    twoJoin.game.gameStarted = true ∧
    List.Perm ["p2", "p1"] (twoJoin.game.players.map Prod.fst) ∧
    twoJoin.game.currentTurn = "p2" ∧ "p2" ≠ "p1" := by
  decide

/-- Claim C4, counterexample. The claim says that in every state
reachable by accepted actions the two players never share a cell. In
the run `c4Trace` (both players join, then seven accepted one-step
moves), `p1` stands at (4,4) and `p2` at (4,3) with `p2` to move; the
move of `p2` onto `p1`'s cell (4,4) passes all handler checks and is
executed, leaving both players on (4,4). -/
theorem C4_counterexample :
    c4Pre = runEvents (initMatch 0) c4Trace ∧
    c4Pre.game.gameStarted = true ∧ c4Pre.game.currentTurn = "p2" ∧
    lookupP c4Pre.game.players "p1" =
      some { id := "p1", username := "alice", pos := { x := 4, y := 4 },
             walls := 10, color := "white" } ∧
    lookupP c4Pre.game.players "p2" =
      some { id := "p2", username := "bob", pos := { x := 4, y := 3 },
             walls := 10, color := "black" } ∧
    moveCheck c4Pre.game "p2" 4 4 = true ∧
    c4Post = stepEvent c4Pre (.msg (.move "p2" 4 4 ["p1", "p2"])) ∧
    lookupP c4Post.game.players "p1" =
      some { id := "p1", username := "alice", pos := { x := 4, y := 4 },
             walls := 10, color := "white" } ∧
    lookupP c4Post.game.players "p2" =
      some { id := "p2", username := "bob", pos := { x := 4, y := 4 },
             walls := 10, color := "black" } := by
  decide

/-- Claim C4, amended: the move handler never inspects the opponent's
position - a move satisfying the bounds and one-step-adjacency checks
is accepted even when its destination is exactly the cell the
opponent occupies, so accepted moves can make the two players share a
cell. -/
theorem C4_theorem (g : GameState) (uid v : String) (p q : Player)
    (hstart : g.gameStarted = true) (hturn : uid = g.currentTurn)
    (hp : lookupP g.players uid = some p)
    (hv : lookupP g.players v = some q) (hvne : v ≠ uid)
    (hbx : 0 ≤ q.pos.x ∧ q.pos.x ≤ 8) (hby : 0 ≤ q.pos.y ∧ q.pos.y ≤ 8)
    (hadj : goAbs (q.pos.x - p.pos.x) + goAbs (q.pos.y - p.pos.y) = 1) :
    moveCheck g uid (q.pos.x : ℚ) (q.pos.y : ℚ) = true := by
  rw [moveCheck_iff g uid _ _ p hstart hturn hp, truncQ_intCast, truncQ_intCast]
  exact ⟨hbx.1, hbx.2, hby.1, hby.2, hadj⟩

/-- Claim C4, witness: in the Scenario C state, `p1` at (4,4) moving
onto the opponent's cell (4,3) is accepted. -/
theorem C4_witness :
    c1State.gameStarted = true ∧ "p2" ≠ "p1" ∧
    moveCheck c1State "p1" ((4 : ℤ) : ℚ) ((3 : ℤ) : ℚ) = true :=
  ⟨rfl, by decide,
   C4_theorem c1State "p1" "p2"
     { id := "p1", username := "alice", pos := { x := 4, y := 4 },
       walls := 10, color := "white" }
     { id := "p2", username := "bob", pos := { x := 4, y := 3 },
       walls := 10, color := "black" }
     rfl rfl (by decide) (by decide) (by decide) (by decide) (by decide) (by decide)⟩

/-- Claim C5: an accepted move wins exactly when the truncated
destination row is the mover's target row - row 0 for color "white"
(who started at row 8), row 8 for color "black" (who started at
row 0); exactly then `winner` is set to the mover's id and the game
leaves the in-progress phase (`gameStarted` becomes `false`, the
code's representation of `Finished`). -/
theorem C5_theorem (g : GameState) (uid : String) (qx qy : ℚ)
    (order : List String) (p : Player)
    (hp : lookupP g.players uid = some p)
    (hacc : moveCheck g uid qx qy = true)
    (hw : g.winner = "") :
    ((handleMove g uid qx qy order).winner =
      if (p.color = "white" ∧ truncQ qy = 0) ∨ (p.color = "black" ∧ truncQ qy = 8)
      then uid else "") ∧
    ((handleMove g uid qx qy order).gameStarted =
      if (p.color = "white" ∧ truncQ qy = 0) ∨ (p.color = "black" ∧ truncQ qy = 8)
      then false else true) := by
  have hstart : g.gameStarted = true := (moveCheck_true_inv g uid qx qy hacc).1
  unfold handleMove
  rw [if_pos hacc, applyMove_eq g uid _ _ order p hp]
  constructor
  · show (if _ then uid else g.winner) = _
    rw [hw]
  · show (if _ then false else g.gameStarted) = _
    rw [hstart]

/-- Claim C5, witness: Scenario B - white `p1` at (4,1) moves to
(4,0); the winner is `p1` and the game is finished. -/
theorem C5_witness :
    moveCheck c5State "p1" 4 0 = true ∧ c5State.winner = "" ∧
    (((handleMove c5State "p1" 4 0 ["p1", "p2"]).winner =
      if ("white" = "white" ∧ truncQ 0 = 0) ∨ ("white" = "black" ∧ truncQ 0 = 8)
      then "p1" else "") ∧
     ((handleMove c5State "p1" 4 0 ["p1", "p2"]).gameStarted =
      if ("white" = "white" ∧ truncQ 0 = 0) ∨ ("white" = "black" ∧ truncQ 0 = 8)
      then false else true)) :=
  ⟨by decide, rfl,
   C5_theorem c5State "p1" 4 0 ["p1", "p2"]
     { id := "p1", username := "alice", pos := { x := 4, y := 1 },
       walls := 10, color := "white" } (by decide) (by decide) rfl⟩

/-- Claim C6, counterexample. The claim says that once `winner` is set
every subsequent move or wall action is rejected and leaves the whole
`GameState` unchanged. In the run `c6WinEvents` `p1` wins; afterwards
`p2` leaves and rejoins (allowed, since only one presence remains),
which restarts the game (`MatchJoin` checks only `GameStarted`, which
the win had cleared) without clearing `winner` - and the subsequent
`p2` move is then accepted and mutates the state while `winner` is
still `p1`. -/
theorem C6_counterexample :
    c6Won = runEvents (initMatch 0) c6WinEvents ∧
    c6Won.game.winner = "p1" ∧ c6Won.game.gameStarted = false ∧
    c6Reborn = runEvents c6Won [.leave "p2", .join "p2" "bob" ["p2", "p1"]] ∧
    c6Reborn.game.winner = "p1" ∧ c6Reborn.game.gameStarted = true ∧
    c6Final = stepEvent c6Reborn (.msg (.move "p2" 4 1 ["p2", "p1"])) ∧
    lookupP c6Reborn.game.players "p2" =
      some { id := "p2", username := "bob", pos := { x := 4, y := 0 },
             walls := 10, color := "black" } ∧
    lookupP c6Final.game.players "p2" =
      some { id := "p2", username := "bob", pos := { x := 4, y := 1 },
             walls := 10, color := "black" } ∧
    c6Final.game ≠ c6Reborn.game ∧
    c6Final.game.winner = "p1" := by
  decide

/-- Claim C6, amended: once a move sets `winner` (every
winner-changing move also clears `gameStarted`), all subsequent
`MatchLoop` messages - moves, wall placements, chat - leave the
`GameState` completely unchanged, as long as no player leaves and
rejoins in between (a rejoin restarts the game without clearing
`winner`, after which moves are accepted again). -/
theorem C6_theorem (g : GameState) (uid : String) (qx qy : ℚ)
    (order : List String) (msgs : List ClientMsg)
    (hwin : (handleMove g uid qx qy order).winner ≠ g.winner) :
    runMsgs (handleMove g uid qx qy order) msgs = handleMove g uid qx qy order := by
  have hgs : (handleMove g uid qx qy order).gameStarted = false := by
    by_cases hacc : moveCheck g uid qx qy = true
    · obtain ⟨-, -, p, hp⟩ := moveCheck_true_inv g uid qx qy hacc
      unfold handleMove at hwin ⊢
      rw [if_pos hacc, applyMove_eq g uid _ _ order p hp] at hwin ⊢
      by_cases hwc : (p.color = "white" ∧ truncQ qy = 0) ∨ (p.color = "black" ∧ truncQ qy = 8)
      · show (if _ then false else g.gameStarted) = false
        rw [if_pos hwc]
      · exfalso
        apply hwin
        show (if _ then uid else g.winner) = g.winner
        rw [if_neg hwc]
    · unfold handleMove at hwin
      rw [if_neg hacc] at hwin
      exact absurd rfl hwin
  exact runMsgs_not_started _ hgs msgs

/-- Claim C6, witness: after white `p1` wins from the Scenario B
state, a batch of a move, a wall placement and a chat message leaves
the finished state untouched. -/
theorem C6_witness :
    (handleMove c5State "p1" 4 0 ["p1", "p2"]).winner ≠ c5State.winner ∧
    runMsgs (handleMove c5State "p1" 4 0 ["p1", "p2"])
        [.move "p2" 4 1 ["p1", "p2"], .placeWall "p2", .chat "p2"] =
      handleMove c5State "p1" 4 0 ["p1", "p2"] :=
  ⟨by decide,
   C6_theorem c5State "p1" 4 0 ["p1", "p2"]
     [.move "p2" 4 1 ["p1", "p2"], .placeWall "p2", .chat "p2"] (by decide)⟩

/-- Claim C7: while the game is in progress, a move message from a
player other than `currentTurn` is ignored: no field of the game state
changes. -/
theorem C7_theorem (g : GameState) (uid : String) (qx qy : ℚ)
    (order : List String)
    (hg : g.gameStarted = true) (hne : uid ≠ g.currentTurn) :
    handleMove g uid qx qy order = g := by
  unfold handleMove moveCheck
  rw [hg, if_neg (by simp : ¬(true = false)), if_pos hne]
  simp

/-- Claim C7, witness: in the fresh two-player state it is `p1`'s
turn, and a move request from `p2` leaves the state unchanged. -/
theorem C7_witness :
    startedState.gameStarted = true ∧ "p2" ≠ startedState.currentTurn ∧
    handleMove startedState "p2" 4 1 ["p1", "p2"] = startedState :=
  ⟨rfl, by decide, C7_theorem startedState "p2" 4 1 ["p1", "p2"] rfl (by decide)⟩

/-- Claim C8: in a match with exactly two players, after any accepted
move the turn strictly alternates - whatever enumeration order the
turn-switch `range` loop sees, the new `currentTurn` is the id of the
player who did not act. (Wall placements are never accepted - the
handler is an unimplemented stub - so the wall half of the claim is
vacuous.) -/
theorem C8_theorem (g : GameState) (a b uid : String) (qx qy : ℚ)
    (order : List String)
    (hkeys : g.players.map Prod.fst = [a, b]) (hab : a ≠ b)
    (horder : order.Perm (g.players.map Prod.fst))
    (huid : uid = g.currentTurn)
    (hacc : moveCheck g uid qx qy = true) :
    (handleMove g uid qx qy order).currentTurn = if uid = a then b else a := by
  obtain ⟨hstart, hturn, p, hp⟩ := moveCheck_true_inv g uid qx qy hacc
  unfold handleMove
  rw [if_pos hacc, applyMove_eq g uid _ _ order p hp]
  show switchTurn order g.currentTurn = _
  rw [hkeys] at horder
  have hmem : uid ∈ g.players.map Prod.fst := lookupP_mem hp
  rw [hkeys] at hmem
  have hcur : uid = a ∨ uid = b := by simpa using hmem
  rw [← huid]
  exact switchTurn_pair hab (perm_pair horder) hcur

/-- Claim C8, witness: from the fresh two-player state, `p1`'s
accepted move to (4,7) hands the turn to `p2`. -/
theorem C8_witness :
    startedState.players.map Prod.fst = ["p1", "p2"] ∧
    moveCheck startedState "p1" 4 7 = true ∧
    (handleMove startedState "p1" 4 7 ["p1", "p2"]).currentTurn =
      if "p1" = "p1" then "p2" else "p1" :=
  ⟨rfl, by decide,
   C8_theorem startedState "p1" "p2" "p1" 4 7 ["p1", "p2"]
     rfl (by decide) (by decide) rfl (by decide)⟩

/-- Claim C9: a winning accepted move still runs the unconditional
turn switch, so the terminal snapshot reports `winner` as the mover
and `currentTurn` as the other, non-winning player. -/
theorem C9_theorem (g : GameState) (a b uid : String) (qx qy : ℚ)
    (order : List String) (p : Player)
    (hkeys : g.players.map Prod.fst = [a, b]) (hab : a ≠ b)
    (horder : order.Perm (g.players.map Prod.fst))
    (huid : uid = g.currentTurn)
    (hp : lookupP g.players uid = some p)
    (hacc : moveCheck g uid qx qy = true)
    (hwin : (p.color = "white" ∧ truncQ qy = 0) ∨ (p.color = "black" ∧ truncQ qy = 8)) :
    (handleMove g uid qx qy order).winner = uid ∧
    (handleMove g uid qx qy order).currentTurn = (if uid = a then b else a) ∧
    (handleMove g uid qx qy order).currentTurn ≠ uid := by
  unfold handleMove
  rw [if_pos hacc, applyMove_eq g uid _ _ order p hp]
  have hmem : uid ∈ g.players.map Prod.fst := lookupP_mem hp
  rw [hkeys] at hmem horder
  have hcur : uid = a ∨ uid = b := by simpa using hmem
  refine ⟨?_, ?_, ?_⟩
  · show (if _ then uid else g.winner) = uid
    rw [if_pos hwin]
  · show switchTurn order g.currentTurn = _
    rw [← huid]
    exact switchTurn_pair hab (perm_pair horder) hcur
  · show switchTurn order g.currentTurn ≠ uid
    rw [← huid, switchTurn_pair hab (perm_pair horder) hcur]
    rcases hcur with h | h <;> rw [h] <;> simp [hab, Ne.symm hab]

/-- Claim C9, witness: white `p1` wins from (4,1) by moving to (4,0);
the snapshot has `winner = p1` and `currentTurn = p2`. -/
theorem C9_witness :
    moveCheck c5State "p1" 4 0 = true ∧
    ((handleMove c5State "p1" 4 0 ["p1", "p2"]).winner = "p1" ∧
     (handleMove c5State "p1" 4 0 ["p1", "p2"]).currentTurn =
       (if "p1" = "p1" then "p2" else "p1") ∧
     (handleMove c5State "p1" 4 0 ["p1", "p2"]).currentTurn ≠ "p1") :=
  ⟨by decide,
   C9_theorem c5State "p1" "p2" "p1" 4 0 ["p1", "p2"]
     { id := "p1", username := "alice", pos := { x := 4, y := 1 },
       walls := 10, color := "white" }
     rfl (by decide) (by decide) rfl (by decide) (by decide) (by decide)⟩

/-- Claim C10: the move handler never rejects a numeric payload for
being non-integral - it behaves exactly as on the toward-zero
truncation of the coordinates; concretely, from a state with white
`p1` at (4,7) the payload x = 39/10 = 3.9, y = 7 is accepted and moves
`p1` to (3,7). -/
theorem C10_theorem :
    (∀ (g : GameState) (uid : String) (qx qy : ℚ) (order : List String),
       handleMove g uid qx qy order =
         handleMove g uid ((truncQ qx : ℤ) : ℚ) ((truncQ qy : ℤ) : ℚ) order) ∧
    q39d10 = 39 / 10 ∧
    truncQ q39d10 = 3 ∧
    moveCheck c10State "p1" q39d10 7 = true ∧
    lookupP (handleMove c10State "p1" q39d10 7 ["p1", "p2"]).players "p1" =
      some { id := "p1", username := "alice", pos := { x := 3, y := 7 },
             walls := 10, color := "white" } := by
  refine ⟨?_, ?_, by decide, by decide, by decide⟩
  · intro g uid qx qy order
    simp only [handleMove, moveCheck, applyMove, truncQ_intCast]
  · norm_num [q39d10, Rat.mk'_eq_divInt, Rat.divInt_eq_div]

end Quoridor
